import Mathlib

/-!
Shallow embedding of the "Find YouTube Gems" Chrome-extension content script
(`src/content/ContentPage.tsx`), covering: API-key rotation (`getCurrentKey`,
`rotateKey`), the retrying fetch client (`youtubeFetch`), the scoring engine
(`computeScore`, `computeLikePercent`), normalization (`normalizeVideo`),
filtering/sorting (`filterAndSort`), and the paginated search loop plus the
enrichment stage of `handleClick`.

Modelling conventions:
  * JavaScript `undefined`/`null` field access is modelled with `Option`.
  * JavaScript truthiness of numbers (`x || y`) is modelled by `jsOrNat`
    (0 is falsy); truthiness of optional strings by `jsTruthyStr`
    ("" and undefined are falsy).
  * Floating-point arithmetic is idealised as exact rational arithmetic;
    the transcendental `Math.log10` is threaded through as an explicit
    function parameter `log10 : ℕ → ℚ`, standing for `Math.log10` applied
    to the (natural-number) argument.  `Number(x.toFixed(6))` is modelled
    by `round6`.
  * Network effects are modelled by passing the sequence of responses the
    network would produce as an explicit argument (one response per request).
-/

namespace FindGems

/-- JS `a || b` on numbers: `0` is falsy. -/
def jsOrNat (a b : ℕ) : ℕ := if a = 0 then b else a

/-- JS truthiness of a possibly-undefined string: `undefined` and `""` are falsy. -/
def jsTruthyStr : Option String → Option String
  | some s => if s = "" then none else some s
  | none => none

/-- JS `a || b` on possibly-undefined strings (result of an `||` chain). -/
def jsOrStr (a b : Option String) : Option String :=
  match jsTruthyStr a with
  | some s => some s
  | none => b

-- ---------- CONFIG (source lines 60-69) ----------

def TOTAL_VIDEOS_TO_FETCH : ℕ := 3000
def PAGE_SIZE : ℕ := 50
def MIN_LIKES : ℕ := 20
def FULL_CONFIDENCE_LIKES : ℕ := 200

/-- Value of `Math.ceil(TOTAL_VIDEOS_TO_FETCH / PAGE_SIZE)` on naturals. -/
def TOTAL_PAGES_TO_FETCH : ℕ :=
  (TOTAL_VIDEOS_TO_FETCH + PAGE_SIZE - 1) / PAGE_SIZE

-- ---------- Key management (source lines 12-19) ----------

/-- Source `getCurrentKey`: `API_KEYS[currentKeyIndex % API_KEYS.length]`.
JS out-of-bounds indexing (in particular the empty-pool case, where
`idx % 0` is `NaN`) yields `undefined`, modelled as `none`. -/
def getCurrentKey (pool : List String) (idx : ℕ) : Option String :=
  pool.get? (idx % pool.length)

/-- Source `rotateKey`: `currentKeyIndex = (currentKeyIndex + 1) % API_KEYS.length`. -/
def rotateKey (poolLen idx : ℕ) : ℕ := (idx + 1) % poolLen

/-- Error vocabulary of the specification's Key Rotator. -/
inductive KeyError where
  | noCredentialsConfigured
  deriving DecidableEq, Repr

/-- Modelled from the spec (§4.1): `current()` "returns pool[index mod length];
fails with NoCredentialsConfigured if pool is empty."  This is the
specification's version of `getCurrentKey`, for comparison with the source's. -/
def getCurrentKeySpec (pool : List String) (idx : ℕ) : Except KeyError String :=
  if h : pool = [] then .error .noCredentialsConfigured
  else .ok (pool.get ⟨idx % pool.length,
    Nat.mod_lt _ (List.length_pos.mpr h)⟩)

-- ---------- youtubeFetch (source lines 21-57) ----------

/-- One parsed network response, as `youtubeFetch` inspects it:
`ok` is `res.ok`, `reason` is `data?.error?.errors?.[0]?.reason`,
`data` the parsed body. -/
structure YtResponse (α : Type) where
  ok : Bool
  reason : Option String
  data : α

/-- The reasons on which `youtubeFetch` rotates the key (source lines 32, 38). -/
def rotatingReason : Option String → Bool
  | some r => r = "quotaExceeded" || r = "accessNotConfigured" || r = "serviceDisabled"
  | none => false

/-- An attempt returns successfully iff its reason is not a rotating one
and the transport status is ok (source lines 32-53). -/
def attemptSucceeds {α : Type} (r : YtResponse α) : Prop :=
  rotatingReason r.reason = false ∧ r.ok = true

instance {α : Type} (r : YtResponse α) : Decidable (attemptSucceeds r) := by
  unfold attemptSucceeds; infer_instance

/-- Result of `youtubeFetch`: the returned body together with the key index
afterwards, or the thrown "All YouTube API keys exhausted." error. -/
inductive FetchResult (α : Type) where
  | success (data : α) (idx : ℕ)
  | exhausted (idx : ℕ)
  deriving Repr

/-- The retry loop of `youtubeFetch` (source lines 25-56): `resp k` is the
parsed response of attempt `k`; `fuel` counts the remaining attempts,
`idx` is `currentKeyIndex`. -/
def youtubeFetchGo {α : Type} (poolLen : ℕ) (resp : ℕ → YtResponse α) :
    ℕ → ℕ → ℕ → FetchResult α
  | 0, _, idx => .exhausted idx
  | fuel + 1, attempt, idx =>
    let r := resp attempt
    if rotatingReason r.reason then
      youtubeFetchGo poolLen resp fuel (attempt + 1) (rotateKey poolLen idx)
    else if r.ok = false then
      youtubeFetchGo poolLen resp fuel (attempt + 1) idx
    else
      .success r.data idx

/-- Call `youtubeFetch(url, maxRetries = Math.max(1, API_KEYS.length))`
starting from key index `idx`. -/
def youtubeFetch {α : Type} (poolLen : ℕ) (resp : ℕ → YtResponse α) (idx : ℕ)
    (maxRetries : ℕ := max 1 poolLen) : FetchResult α :=
  youtubeFetchGo poolLen resp maxRetries 0 idx

/-- Number of rotating-reason responses among attempts `[a, a + n)`. -/
def rotCount {α : Type} (resp : ℕ → YtResponse α) (a n : ℕ) : ℕ :=
  ((List.range' a n).filter (fun k => rotatingReason (resp k).reason)).length

-- ---------- Scoring engine (source lines 107-127) ----------

/-- Source `computeLikePercent` (source lines 107-111). -/
def computeLikePercent (likes dislikes : ℕ) : Option ℚ :=
  if likes + dislikes = 0 then none
  else some ((likes : ℚ) / (likes + dislikes) * 100)

/-- Model of `Number(x.toFixed(6))`: round to 6 decimal digits. -/
def round6 (q : ℚ) : ℚ := (round (q * 1000000) : ℤ) / 1000000

/-- The `ratio` term (source line 118). -/
def scoreRatio (likes dislikes : ℕ) : ℚ :=
  if likes + dislikes > 0 then (likes : ℚ) / ((likes : ℚ) + dislikes) else 1/2

/-- The `confidence` term (source line 119). -/
def scoreConfidence (likes : ℕ) : ℚ :=
  min 1 ((likes : ℚ) / FULL_CONFIDENCE_LIKES)

/-- The `smallPenalty` factor (source line 120). -/
def scoreSmallPenalty (likes : ℕ) : ℚ :=
  if likes < 10 then 1/2 else 1

/-- The `viewWeight` term (source line 121); `lv` stands for `Math.log10(views + 1)`. -/
def scoreViewWeight (lv : ℚ) : ℚ := min 1 (lv / 6)

/-- The score before rounding (source lines 123-124). -/
def rawScore (likes dislikes : ℕ) (lv : ℚ) : ℚ :=
  (scoreRatio likes dislikes * (7/10) + scoreConfidence likes * (2/10) +
    scoreViewWeight lv * (1/10)) * scoreSmallPenalty likes

-- ---------- Data model (source lines 72-97 and API shapes) ----------

/-- Interface `LikeDislikeData` (source lines 72-80). -/
structure LikeDislikeData where
  id : String
  dateCreated : String
  likes : ℕ
  dislikes : ℕ
  rating : ℚ
  viewCount : ℕ
  deleted : Bool
  deriving DecidableEq, Repr

/-- The parts of a raw search item's `snippet` the pipeline reads. -/
structure Snippet where
  title : Option String
  channelTitle : Option String
  description : Option String
  publishedAt : Option String
  thumbHigh : Option String
  thumbMedium : Option String
  thumbDefault : Option String
  deriving DecidableEq, Repr

/-- A raw search item.  `idVideoId` models `item.id?.videoId`, `idRaw` models
`item.id` when it is a plain string identifier; `snippet` models
`item.snippet` (possibly absent). -/
structure RawItem where
  idVideoId : Option String
  idRaw : Option String
  snippet : Option Snippet
  deriving DecidableEq, Repr

/-- The parts of a details-API record (`part=contentDetails,snippet,statistics`)
that `normalizeVideo` reads. -/
structure VideoDetails where
  statViewCount : Option ℕ
  snippetPublishedAt : Option String
  duration : Option String
  deriving DecidableEq, Repr

/-- Interface `SimpleVideo` (source lines 82-97), restricted to the fields the
pipeline computes (the UI-only `durationFormatted` is omitted). -/
structure SimpleVideo where
  videoId : Option String
  title : Option String
  channelTitle : Option String
  description : Option String
  thumbnail : String
  publishedAt : Option String
  viewCount : Option ℕ
  likes : ℕ
  dislikes : ℕ
  likePercent : Option ℚ
  score : ℚ
  deriving DecidableEq, Repr

/-- Source `computeScore` (source lines 113-127); `log10 n` stands for
`Math.log10(n)`.  `video.likes || 0` and `video.dislikes || 0` are identities
on naturals; `video.viewCount || 0` defaults the absent view count. -/
def computeScore (log10 : ℕ → ℚ) (video : SimpleVideo) : ℚ :=
  let likes := video.likes
  let dislikes := video.dislikes
  let views := video.viewCount.getD 0
  round6 ((scoreRatio likes dislikes * (7/10) + scoreConfidence likes * (2/10) +
    scoreViewWeight (log10 (views + 1)) * (1/10)) * scoreSmallPenalty likes)

/-- Modelled from the spec (§4.6): `score(likes, dislikes, views)` with
`ratio = likes/(likes+dislikes)` if the denominator is positive else `0.5`,
`confidence = min(1, likes/FULL_CONFIDENCE_LIKES)`,
`viewWeight = min(1, log10(views+1)/6)`,
`rawScore = ratio*0.7 + confidence*0.2 + viewWeight*0.1`,
`smallPenalty = 0.5 if likes < 10 else 1`,
`score = rawScore * smallPenalty` rounded to 6 decimal digits.
This is the specification's version of the scoring function, for comparison
with the source's `computeScore`. -/
def specScore (log10 : ℕ → ℚ) (likes dislikes views : ℕ) : ℚ :=
  let ratio : ℚ :=
    if likes + dislikes > 0 then (likes : ℚ) / ((likes : ℚ) + (dislikes : ℚ)) else 1/2
  let confidence : ℚ := min 1 ((likes : ℚ) / (FULL_CONFIDENCE_LIKES : ℚ))
  let viewWeight : ℚ := min 1 (log10 (views + 1) / 6)
  let raw : ℚ := ratio * (7/10) + confidence * (2/10) + viewWeight * (1/10)
  let smallPenalty : ℚ := if likes < 10 then 1/2 else 1
  round6 (raw * smallPenalty)

-- ---------- Identifier extraction (source lines 173, 451, 460, 467) ----------

/-- Expression `item.id?.videoId || item.id`, as assigned in `normalizeVideo`
(source line 173): the raw JS `||` chain, which may still produce a
falsy value (undefined → `none`; an empty string passes through). -/
def rawIdOf (item : RawItem) : Option String :=
  jsOrStr item.idVideoId item.idRaw

/-- The identifier as every guarded use sees it (`const id = item.id?.videoId
|| item.id; if (!id) ...`): `none` when the `||` chain is falsy
(both fields absent, or the surviving value is `""`). -/
def effectiveId (item : RawItem) : Option String :=
  jsTruthyStr (rawIdOf item)

-- ---------- Pagination (source lines 429-456) ----------

/-- One parsed search-API response body, as `handleClick`'s page loop reads
it: `items` is `data.items` (`none` when the field is absent or null —
note an empty array is a *present* value), `nextPageToken` is
`data.nextPageToken`. -/
structure Page where
  items : Option (List RawItem)
  nextPageToken : Option String
  deriving Repr

/-- The dedup filter body (source lines 449-455): keep an item iff its
effective id is truthy and not seen before; `seen` accumulates kept ids. -/
def dedupGo (seen : List String) : List RawItem → List RawItem
  | [] => []
  | it :: rest =>
    match effectiveId it with
    | none => dedupGo seen rest
    | some id =>
      if id ∈ seen then dedupGo seen rest
      else it :: dedupGo (id :: seen) rest

/-- "Remove duplicate videos by videoId as we accumulate"
(source lines 448-455): a fresh `seen` set each time. -/
def dedupById (l : List RawItem) : List RawItem := dedupGo [] l

/-- How the page loop terminated. -/
inductive StopMode where
  | budgetExhausted
  | noItems
  | noToken
  deriving DecidableEq, Repr

/-- Outcome of the page loop: accumulated items, number of page requests
issued, termination mode, and the index of the last request issued
(meaningful when at least one request was issued). -/
structure SearchOutcome where
  acc : List RawItem
  requests : ℕ
  mode : StopMode
  lastPage : ℕ
  deriving Repr

/-- The paginated fetch loop of `handleClick` (source lines 433-456):
`pages k` is the parsed body answering the `k`-th request; `fuel` is the
remaining iteration budget (initially `TOTAL_PAGES_TO_FETCH`), `i` the index
of the next request, `acc` the accumulated `allResults`.

Faithful control flow: `if (!data?.items) break` fires only when the items
field is absent (an empty array is truthy); the accumulated list is extended,
then `if (!nextPageToken) break` fires *before* the dedup step, so a final
page that carries no continuation token is appended without deduplication. -/
def searchLoop (pages : ℕ → Page) : ℕ → ℕ → List RawItem → SearchOutcome
  | 0, i, acc => ⟨acc, 0, .budgetExhausted, i⟩
  | fuel + 1, i, acc =>
    let p := pages i
    match p.items with
    | none => ⟨acc, 1, .noItems, i⟩
    | some its =>
      match p.nextPageToken with
      | none => ⟨acc ++ its, 1, .noToken, i⟩
      | some _ =>
        let r := searchLoop pages fuel (i + 1) (dedupById (acc ++ its))
        ⟨r.acc, r.requests + 1, r.mode, r.lastPage⟩

/-- The whole paginated fetch as `handleClick` runs it. -/
def fetchSearchResults (pages : ℕ → Page) : SearchOutcome :=
  searchLoop pages TOTAL_PAGES_TO_FETCH 0 []

/-- The items field of page `k`, defaulted to `[]`; used to state what the
loop accumulated. -/
def pageItems (pages : ℕ → Page) (k : ℕ) : List RawItem :=
  ((pages k).items).getD []

/-- Concatenation of the items of pages `[i, i + n)`. -/
def itemsConcat (pages : ℕ → Page) (i n : ℕ) : List RawItem :=
  (List.range' i n).flatMap (pageItems pages)

/-- The identifier sequence of a raw-item list (truthy ids, in order). -/
def idsOf (l : List RawItem) : List String := l.filterMap effectiveId

/-- Modelled from the spec (§4.3/§8): stable first-occurrence deduplication
of an identifier sequence — "preserves first occurrence and contains each
identifier exactly once".  The specification's notion, for comparison. -/
def keepFirst : List String → List String
  | [] => []
  | x :: xs => x :: (keepFirst xs).filter (fun y => y ≠ x)

-- ---------- Normalization (source lines 163-210) ----------

/-- The view-count resolution of `normalizeVideo` (source lines 182-185):
`(details && Number(details.statistics?.viewCount || 0)) || stats?.viewCount
|| 0`. -/
def resolveViewCount (details : Option VideoDetails)
    (stats : Option LikeDislikeData) : ℕ :=
  jsOrNat (match details with
           | some d => d.statViewCount.getD 0
           | none => 0)
    (jsOrNat (match stats with
              | some s => s.viewCount
              | none => 0) 0)

/-- Source `normalizeVideo` (source lines 163-210); `log10` as in `computeScore`. -/
def normalizeVideo (log10 : ℕ → ℚ) (item : RawItem)
    (stats : Option LikeDislikeData) (details : Option VideoDetails) :
    SimpleVideo :=
  let snippet := item.snippet
  let likes := (stats.map (·.likes)).getD 0
  let dislikes := (stats.map (·.dislikes)).getD 0
  let likePercent := computeLikePercent likes dislikes
  let videoId := rawIdOf item
  let thumbnail :=
    (jsOrStr (snippet.bind (·.thumbHigh))
      (jsOrStr (snippet.bind (·.thumbMedium))
        (snippet.bind (·.thumbDefault)))).getD ""
  let publishedFromDetails :=
    jsOrStr (details.bind (·.snippetPublishedAt)) (snippet.bind (·.publishedAt))
  let viewCount := resolveViewCount details stats
  let video : SimpleVideo :=
    { videoId := videoId
      title := snippet.bind (·.title)
      channelTitle := snippet.bind (·.channelTitle)
      description := snippet.bind (·.description)
      thumbnail := thumbnail
      publishedAt := publishedFromDetails
      viewCount := some viewCount
      likes := likes
      dislikes := dislikes
      likePercent := likePercent
      score := 0 }
  { video with score := computeScore log10 video }

-- ---------- Enrichment and filter/sort (source lines 212-218, 459-482) ----------

/-- One arm of the `Promise.all` map (source lines 466-478): `votes id` is
`none` when the vote fetch for `id` throws (the `catch` branch passes
`undefined` as `stats`), `details` is `detailsMap.get`. -/
def enrichOne (log10 : ℕ → ℚ) (votes : String → Option LikeDislikeData)
    (details : String → Option VideoDetails) (item : RawItem) :
    Option SimpleVideo :=
  match effectiveId item with
  | none => none
  | some id => some (normalizeVideo log10 item (votes id) (details id))

/-- The `enriched` array (source lines 465-479). -/
def enrichList (log10 : ℕ → ℚ) (votes : String → Option LikeDislikeData)
    (details : String → Option VideoDetails) (items : List RawItem) :
    List (Option SimpleVideo) :=
  items.map (enrichOne log10 votes details)

/-- The `cleanList` value (source line 481): drop the nulls. -/
def cleanList (l : List (Option SimpleVideo)) : List SimpleVideo :=
  l.filterMap id

/-- Source `filterAndSort` (source lines 212-218).  `Array.prototype.sort` is
required to be stable by the ECMAScript standard; the comparator
`(a, b) => b.score - a.score` keeps `a` before `b` iff `b.score ≤ a.score`,
so it is the stable sort by descending score. -/
def filterAndSort (videos : List SimpleVideo) : List SimpleVideo :=
  (videos.filter (fun v => MIN_LIKES ≤ v.likes)).mergeSort
    (fun a b => b.score ≤ a.score)

/-- The enrichment-to-render tail of `handleClick` (source lines 465-482),
from the accumulated raw items to the `finalList` handed to
`injectEnhancedResults`. -/
def pipelineFinal (log10 : ℕ → ℚ) (votes : String → Option LikeDislikeData)
    (details : String → Option VideoDetails) (items : List RawItem) :
    List SimpleVideo :=
  filterAndSort (cleanList (enrichList log10 votes details items))

-- ---------- Concrete instances used by witnesses and counterexamples ----------

def wv1 : SimpleVideo := ⟨some "A", none, none, none, "", none, some 0, 25, 0, none, 1⟩
def wv2 : SimpleVideo := ⟨some "B", none, none, none, "", none, some 0, 5, 0, none, 2⟩
def wv3 : SimpleVideo := ⟨some "C", none, none, none, "", none, some 0, 30, 0, none, 1⟩

def witA : RawItem := ⟨some "A", none, none⟩
def witB : RawItem := ⟨some "B", none, none⟩
def witC : RawItem := ⟨some "C", none, none⟩

def respW : ℕ → YtResponse ℕ := fun k =>
  if k = 0 then ⟨false, some "quotaExceeded", 1⟩ else ⟨true, none, 2⟩

def pgsDup : ℕ → Page := fun k =>
  if k = 0 then ⟨some [witA], some "t"⟩ else ⟨some [witA], none⟩

def pgsEmptyItems : ℕ → Page := fun k =>
  if k = 0 then ⟨some [], some "t"⟩ else ⟨some [], none⟩

-- ---------- Helper lemmas ----------

lemma round_mono_rat {x y : ℚ} (h : x ≤ y) : round x ≤ round y := by
  rw [round_eq, round_eq]
  exact Int.floor_le_floor (by linarith)

lemma round6_nonneg {q : ℚ} (h : 0 ≤ q) : 0 ≤ round6 q := by
  unfold round6
  have h1 : (0 : ℤ) ≤ round (q * 1000000) := by
    have := round_mono_rat (mul_nonneg h (by norm_num) : (0:ℚ) ≤ q * 1000000)
    simp at this
    exact this
  positivity

lemma round6_le_one {q : ℚ} (h : q ≤ 1) : round6 q ≤ 1 := by
  unfold round6
  have h1 : round (q * 1000000) ≤ round ((1000000 : ℚ)) := by
    apply round_mono_rat; nlinarith
  have h2 : round ((1000000 : ℚ)) = 1000000 := by
    rw [round_eq]
    norm_num
  rw [h2] at h1
  rw [div_le_one (by norm_num)]
  exact_mod_cast h1

lemma scoreRatio_nonneg (likes dislikes : ℕ) : 0 ≤ scoreRatio likes dislikes := by
  unfold scoreRatio
  split
  · positivity
  · norm_num

lemma scoreRatio_le_one (likes dislikes : ℕ) : scoreRatio likes dislikes ≤ 1 := by
  unfold scoreRatio
  split
  · rename_i h
    rw [div_le_one (by exact_mod_cast h)]
    have : (likes : ℚ) ≤ (likes : ℚ) + dislikes :=
      le_add_of_nonneg_right (by positivity)
    linarith
  · norm_num

lemma scoreConfidence_nonneg (likes : ℕ) : 0 ≤ scoreConfidence likes := by
  unfold scoreConfidence FULL_CONFIDENCE_LIKES
  have : (0:ℚ) ≤ (likes : ℚ) / 200 := by positivity
  simp only [le_min_iff]
  norm_num [this]

lemma scoreConfidence_le_one (likes : ℕ) : scoreConfidence likes ≤ 1 :=
  min_le_left _ _

lemma scoreViewWeight_nonneg {lv : ℚ} (h : 0 ≤ lv) : 0 ≤ scoreViewWeight lv := by
  unfold scoreViewWeight
  have : (0:ℚ) ≤ lv / 6 := by positivity
  simp only [le_min_iff]
  norm_num [this]

lemma scoreViewWeight_le_one (lv : ℚ) : scoreViewWeight lv ≤ 1 :=
  min_le_left _ _

lemma scoreSmallPenalty_nonneg (likes : ℕ) : 0 ≤ scoreSmallPenalty likes := by
  unfold scoreSmallPenalty; split <;> norm_num

lemma scoreSmallPenalty_le_one (likes : ℕ) : scoreSmallPenalty likes ≤ 1 := by
  unfold scoreSmallPenalty; split <;> norm_num

lemma rawScore_nonneg (likes dislikes : ℕ) {lv : ℚ} (h : 0 ≤ lv) :
    0 ≤ rawScore likes dislikes lv := by
  unfold rawScore
  have h1 := scoreRatio_nonneg likes dislikes
  have h2 := scoreConfidence_nonneg likes
  have h3 := scoreViewWeight_nonneg h
  have h4 := scoreSmallPenalty_nonneg likes
  positivity

lemma rawScore_le_one (likes dislikes : ℕ) {lv : ℚ} (h : 0 ≤ lv) :
    rawScore likes dislikes lv ≤ 1 := by
  unfold rawScore
  have h1 := scoreRatio_le_one likes dislikes
  have h1' := scoreRatio_nonneg likes dislikes
  have h2 := scoreConfidence_le_one likes
  have h2' := scoreConfidence_nonneg likes
  have h3 := scoreViewWeight_le_one lv
  have h3' := scoreViewWeight_nonneg h
  have h4 := scoreSmallPenalty_le_one likes
  have h4' := scoreSmallPenalty_nonneg likes
  nlinarith

-- ---------- C2 ----------

/-- C2: `computeScore` returns `round6((ratio*0.7 + confidence*0.2 +
viewWeight*0.1) * smallPenalty)` with `ratio = likes/(likes+dislikes)` when
`likes + dislikes > 0` and exactly `0.5` otherwise,
`confidence = min(1, likes/FULL_CONFIDENCE_LIKES)`,
`viewWeight = min(1, log10(views+1)/6)`, `smallPenalty = 0.5` when
`likes < 10` and `1` otherwise — i.e. it agrees with the specification's
scoring formula `specScore` on every input; in particular with
`likes = dislikes = 0` the ratio used is exactly `1/2` for every view count. -/
theorem computeScore_eq_specScore (log10 : ℕ → ℚ) (v : SimpleVideo) :
    computeScore log10 v = specScore log10 v.likes v.dislikes (v.viewCount.getD 0) ∧
    (v.likes = 0 → v.dislikes = 0 →
      computeScore log10 v =
        round6 (((1/2) * (7/10) + 0 * (2/10) +
          min 1 (log10 (v.viewCount.getD 0 + 1) / 6) * (1/10)) * (1/2))) := by
  constructor
  · simp [computeScore, specScore, scoreRatio, scoreConfidence, scoreViewWeight,
      scoreSmallPenalty]
  · intro h0 h0'
    simp [computeScore, scoreRatio, scoreConfidence, scoreViewWeight,
      scoreSmallPenalty, h0, h0', FULL_CONFIDENCE_LIKES]

theorem computeScore_eq_specScore_witness :
    computeScore (fun _ => 0)
        ⟨none, none, none, none, "", none, some 5, 0, 0, none, 0⟩ =
      round6 (((1/2) * (7/10) + 0 * (2/10) +
        min 1 ((0 : ℚ) / 6) * (1/10)) * (1/2)) :=
  (computeScore_eq_specScore (fun _ => 0)
    ⟨none, none, none, none, "", none, some 5, 0, 0, none, 0⟩).2 rfl rfl

-- ---------- C4 ----------

/-- C4 counterexample: with an empty credential pool, the source's
`getCurrentKey` does not fail — it returns the JS value `undefined`
(modelled `none`), the specification's version is the one that fails with
`NoCredentialsConfigured`, and the empty-pool condition ultimately surfaces
from `youtubeFetch` as the exhausted-retries error instead. -/
theorem getCurrentKey_empty_counterexample :
    getCurrentKey [] 0 = none ∧
    getCurrentKeySpec [] 0 = Except.error KeyError.noCredentialsConfigured ∧
    youtubeFetch 0 (fun _ => ⟨false, none, (0 : ℕ)⟩) 0 =
      FetchResult.exhausted 0 :=
  ⟨rfl, rfl, rfl⟩

/-- C4 (amended): when the credential pool is empty, `getCurrentKey` returns
`undefined` (out-of-bounds subscript) rather than failing; when the pool is
non-empty, it returns `pool[index mod length]`. -/
theorem getCurrentKey_amended (pool : List String) (idx : ℕ) :
    (pool = [] → getCurrentKey pool idx = none) ∧
    (pool ≠ [] →
      getCurrentKey pool idx = some (pool.getD (idx % pool.length) "")) := by
  constructor
  · rintro rfl
    simp [getCurrentKey]
  · intro hne
    have hlt : idx % pool.length < pool.length :=
      Nat.mod_lt _ (List.length_pos.mpr hne)
    unfold getCurrentKey
    rw [List.getD_eq_getElem?_getD]
    rw [List.get?_eq_getElem?]
    rw [List.getElem?_eq_getElem hlt]
    rfl

theorem getCurrentKey_amended_witness :
    getCurrentKey [] 5 = none ∧ getCurrentKey ["a", "b"] 3 = some "b" :=
  ⟨(getCurrentKey_amended [] 5).1 rfl,
   (getCurrentKey_amended ["a", "b"] 3).2 (by decide)⟩

-- ---------- C7 ----------

/-- C7: for every input the score returned by `computeScore` lies in
`[0, 1]` (assuming only that `Math.log10` is non-negative on arguments
`≥ 1`, which holds of the real `log10`), and the unrounded formula attains
the ceiling `1 = 0.7 + 0.2 + 0.1` exactly when the ratio, confidence and
view-weight terms all saturate at `1` and the small-likes penalty does not
apply. -/
theorem computeScore_bounded (log10 : ℕ → ℚ)
    (hlog : ∀ n, 1 ≤ n → 0 ≤ log10 n) (video : SimpleVideo) :
    0 ≤ computeScore log10 video ∧ computeScore log10 video ≤ 1 ∧
    (∀ likes dislikes : ℕ, ∀ lv : ℚ, 0 ≤ lv →
      (rawScore likes dislikes lv = 1 ↔
        scoreRatio likes dislikes = 1 ∧ scoreConfidence likes = 1 ∧
          scoreViewWeight lv = 1 ∧ scoreSmallPenalty likes = 1)) := by
  have hlv : 0 ≤ log10 (video.viewCount.getD 0 + 1) :=
    hlog _ (Nat.le_add_left 1 _)
  have hraw0 := rawScore_nonneg video.likes video.dislikes hlv
  have hraw1 := rawScore_le_one video.likes video.dislikes hlv
  have hcs : computeScore log10 video =
      round6 (rawScore video.likes video.dislikes
        (log10 (video.viewCount.getD 0 + 1))) := by
    simp [computeScore, rawScore]
  refine ⟨?_, ?_, ?_⟩
  · rw [hcs]; exact round6_nonneg hraw0
  · rw [hcs]; exact round6_le_one hraw1
  · intro likes dislikes lv hlv'
    constructor
    · intro h1
      have a1 := scoreRatio_le_one likes dislikes
      have a0 := scoreRatio_nonneg likes dislikes
      have b1 := scoreConfidence_le_one likes
      have b0 := scoreConfidence_nonneg likes
      have c1 := scoreViewWeight_le_one lv
      have c0 := scoreViewWeight_nonneg hlv'
      have hp : scoreSmallPenalty likes = 1/2 ∨ scoreSmallPenalty likes = 1 := by
        unfold scoreSmallPenalty; split
        · exact Or.inl rfl
        · exact Or.inr rfl
      rcases hp with hp | hp
      · exfalso
        unfold rawScore at h1
        rw [hp] at h1
        nlinarith
      · unfold rawScore at h1
        rw [hp] at h1
        refine ⟨?_, ?_, ?_, hp⟩ <;> nlinarith
    · rintro ⟨ha, hb, hc, hd⟩
      unfold rawScore
      rw [ha, hb, hc, hd]
      norm_num

theorem computeScore_bounded_witness :
    0 ≤ computeScore (fun _ => 0)
        ⟨none, none, none, none, "", none, some 0, 1, 0, none, 0⟩ ∧
    computeScore (fun _ => 0)
        ⟨none, none, none, none, "", none, some 0, 1, 0, none, 0⟩ ≤ 1 ∧
    (∀ likes dislikes : ℕ, ∀ lv : ℚ, 0 ≤ lv →
      (rawScore likes dislikes lv = 1 ↔
        scoreRatio likes dislikes = 1 ∧ scoreConfidence likes = 1 ∧
          scoreViewWeight lv = 1 ∧ scoreSmallPenalty likes = 1)) :=
  computeScore_bounded (fun _ => 0) (fun _ _ => le_refl 0)
    ⟨none, none, none, none, "", none, some 0, 1, 0, none, 0⟩

-- ---------- C9 ----------

/-- C9: the normalized view count uses the detail record's
`statistics.viewCount` when the detail record is present and that value is
nonzero; otherwise the vote record's `viewCount` when present and nonzero;
otherwise `0`.  The assembled `SimpleVideo` carries exactly this resolved
view count, and its score is `computeScore` of the record carrying it. -/
theorem resolveViewCount_precedence (details : Option VideoDetails)
    (stats : Option LikeDislikeData) (log10 : ℕ → ℚ) (item : RawItem) :
    (∀ d, details = some d → d.statViewCount.getD 0 ≠ 0 →
      resolveViewCount details stats = d.statViewCount.getD 0) ∧
    ((details = none ∨ ∃ d, details = some d ∧ d.statViewCount.getD 0 = 0) →
      ∀ s, stats = some s → s.viewCount ≠ 0 →
        resolveViewCount details stats = s.viewCount) ∧
    ((details = none ∨ ∃ d, details = some d ∧ d.statViewCount.getD 0 = 0) →
      (stats = none ∨ ∃ s, stats = some s ∧ s.viewCount = 0) →
        resolveViewCount details stats = 0) ∧
    (normalizeVideo log10 item stats details).viewCount =
      some (resolveViewCount details stats) ∧
    (normalizeVideo log10 item stats details).score =
      computeScore log10
        { normalizeVideo log10 item stats details with score := 0 } := by
  refine ⟨?_, ?_, ?_, ?_, ?_⟩
  · rintro d rfl hd
    simp [resolveViewCount, jsOrNat, hd]
  · rintro hd s rfl hs
    rcases hd with rfl | ⟨d, rfl, hd0⟩ <;>
      simp [resolveViewCount, jsOrNat, hs, *]
  · rintro hd hs
    rcases hd with rfl | ⟨d, rfl, hd0⟩ <;>
      rcases hs with rfl | ⟨s, rfl, hs0⟩ <;>
        simp [resolveViewCount, jsOrNat, *]
  · simp [normalizeVideo]
  · simp [normalizeVideo]

theorem resolveViewCount_precedence_witness :
    resolveViewCount (some ⟨some 0, none, none⟩)
      (some ⟨"x", "d", 3, 1, 0, 7, false⟩) = 7 :=
  (resolveViewCount_precedence (some ⟨some 0, none, none⟩)
      (some ⟨"x", "d", 3, 1, 0, 7, false⟩) (fun _ => 0)
      ⟨none, none, none⟩).2.1
    (Or.inr ⟨⟨some 0, none, none⟩, rfl, rfl⟩)
    ⟨"x", "d", 3, 1, 0, 7, false⟩ rfl (by decide)

-- ---------- C6 ----------

lemma scoreLE_trans (a b c : SimpleVideo) :
    (decide (b.score ≤ a.score)) → (decide (c.score ≤ b.score)) →
    (decide (c.score ≤ a.score)) := by
  simp only [decide_eq_true_eq]
  exact fun hab hbc => le_trans hbc hab

lemma scoreLE_total (a b : SimpleVideo) :
    (decide (b.score ≤ a.score)) || (decide (a.score ≤ b.score)) := by
  simp only [Bool.or_eq_true, decide_eq_true_eq]
  exact le_total b.score a.score

/-- C6: `filterAndSort` returns exactly the entries with
`likes ≥ MIN_LIKES` (a permutation of the filtered input, and every output
entry satisfies the floor), ordered by descending score, and any two
entries of equal score keep their original arrival order (stability of the
sort). -/
theorem filterAndSort_spec (videos : List SimpleVideo) :
    (∀ v ∈ filterAndSort videos, MIN_LIKES ≤ v.likes) ∧
    (filterAndSort videos).Perm
      (videos.filter (fun v => MIN_LIKES ≤ v.likes)) ∧
    (filterAndSort videos).Pairwise (fun a b => b.score ≤ a.score) ∧
    (∀ a b : SimpleVideo, a.score = b.score →
      [a, b].Sublist (videos.filter (fun v => MIN_LIKES ≤ v.likes)) →
      [a, b].Sublist (filterAndSort videos)) := by
  refine ⟨?_, ?_, ?_, ?_⟩
  · intro v hv
    have hmem : v ∈ videos.filter (fun v => MIN_LIKES ≤ v.likes) :=
      List.mem_mergeSort.mp hv
    have := (List.mem_filter.mp hmem).2
    simpa using this
  · exact List.mergeSort_perm _ _
  · have hs := List.sorted_mergeSort scoreLE_trans scoreLE_total
      (videos.filter (fun v => MIN_LIKES ≤ v.likes))
    exact hs.imp (fun h => by simpa using h)
  · intro a b hab hsub
    apply List.sublist_mergeSort scoreLE_trans scoreLE_total _ hsub
    simp [List.pairwise_cons, hab]

theorem filterAndSort_spec_witness :
    [wv1, wv3].Sublist (filterAndSort [wv1, wv2, wv3]) :=
  (filterAndSort_spec [wv1, wv2, wv3]).2.2.2 wv1 wv3 rfl (by decide)

-- ---------- C5 ----------

/-- C5: if the vote fetch fails for identifier `vid` (modelled by replacing
the vote oracle's answer at `vid` with `none`), the item with that
identifier still appears in the aggregator's input with `likes = 0`,
`dislikes = 0` and `likePercent = null`, and every item with a different
identifier normalizes to exactly the record it would have produced without
the failure. -/
theorem voteFailure_isolated (log10 : ℕ → ℚ)
    (votes : String → Option LikeDislikeData)
    (details : String → Option VideoDetails) (items : List RawItem)
    (vid : String) :
    (∀ item ∈ items, effectiveId item ≠ some vid →
      enrichOne log10 (fun i => if i = vid then none else votes i) details
          item =
        enrichOne log10 votes details item) ∧
    (∀ item ∈ items, effectiveId item = some vid →
      ∃ sv, enrichOne log10 (fun i => if i = vid then none else votes i)
            details item = some sv ∧
        sv.likes = 0 ∧ sv.dislikes = 0 ∧ sv.likePercent = none ∧
        sv ∈ cleanList (enrichList log10
          (fun i => if i = vid then none else votes i) details items)) := by
  constructor
  · intro item _ hne
    unfold enrichOne
    cases heq : effectiveId item with
    | none => rfl
    | some id =>
      have hid : id ≠ vid := by
        rintro rfl
        exact hne heq
      simp [hid]
  · intro item hmem heq
    have heqE : enrichOne log10 (fun i => if i = vid then none else votes i)
        details item = some (normalizeVideo log10 item none (details vid)) := by
      unfold enrichOne
      rw [heq]
      simp
    refine ⟨normalizeVideo log10 item none (details vid), heqE, ?_, ?_, ?_, ?_⟩
    · simp [normalizeVideo]
    · simp [normalizeVideo]
    · simp [normalizeVideo, computeLikePercent]
    · unfold cleanList enrichList
      rw [List.mem_filterMap]
      exact ⟨enrichOne log10 (fun i => if i = vid then none else votes i)
          details item,
        List.mem_map_of_mem _ hmem, by rw [heqE]; rfl⟩

theorem voteFailure_isolated_witness :
    ∃ sv, enrichOne (fun _ => 0)
        (fun i => if i = "B" then none
                  else some ⟨i, "d", 30, 2, 0, 100, false⟩)
        (fun _ => none) witB = some sv ∧
      sv.likes = 0 ∧ sv.dislikes = 0 ∧ sv.likePercent = none ∧
      sv ∈ cleanList (enrichList (fun _ => 0)
        (fun i => if i = "B" then none
                  else some ⟨i, "d", 30, 2, 0, 100, false⟩)
        (fun _ => none) [witA, witB, witC]) :=
  (voteFailure_isolated (fun _ => 0)
      (fun i => some ⟨i, "d", 30, 2, 0, 100, false⟩)
      (fun _ => none) [witA, witB, witC] "B").2 witB (by decide) rfl

-- ---------- C10 ----------

lemma jsTruthyStr_some {o : Option String} {s : String}
    (h : jsTruthyStr o = some s) : o = some s := by
  cases o with
  | none => simp [jsTruthyStr] at h
  | some t =>
    unfold jsTruthyStr at h
    by_cases ht : t = ""
    · simp [ht] at h
    · simp [ht] at h
      rw [h]

lemma effectiveId_rawIdOf {item : RawItem} {id : String}
    (h : effectiveId item = some id) : rawIdOf item = some id :=
  jsTruthyStr_some h

/-- C10: a raw search item lacking both `id.videoId` and `id` is mapped to
null during enrichment, and every video in the final list handed to the
renderer has a defined identifier. -/
theorem finalList_ids_defined (log10 : ℕ → ℚ)
    (votes : String → Option LikeDislikeData)
    (details : String → Option VideoDetails) (items : List RawItem) :
    (∀ item : RawItem, item.idVideoId = none → item.idRaw = none →
      enrichOne log10 votes details item = none) ∧
    (∀ v ∈ pipelineFinal log10 votes details items, v.videoId.isSome) := by
  constructor
  · intro item h1 h2
    unfold enrichOne effectiveId rawIdOf jsOrStr
    simp [h1, h2, jsTruthyStr]
  · intro v hv
    unfold pipelineFinal filterAndSort at hv
    have hv2 := List.mem_mergeSort.mp hv
    have hv3 : v ∈ cleanList (enrichList log10 votes details items) :=
      (List.mem_filter.mp hv2).1
    unfold cleanList enrichList at hv3
    rw [List.mem_filterMap] at hv3
    obtain ⟨o, ho, hid⟩ := hv3
    rw [List.mem_map] at ho
    obtain ⟨item, _, hEnr⟩ := ho
    cases heq : effectiveId item with
    | none =>
      rw [← hEnr] at hid
      unfold enrichOne at hid
      rw [heq] at hid
      simp at hid
    | some id =>
      rw [← hEnr] at hid
      unfold enrichOne at hid
      rw [heq] at hid
      simp only [id_eq, Option.some_inj] at hid
      rw [← hid]
      have : (normalizeVideo log10 item (votes id) (details id)).videoId =
          rawIdOf item := by
        simp [normalizeVideo]
      rw [this, effectiveId_rawIdOf heq]
      rfl

theorem finalList_ids_defined_witness :
    enrichOne (fun _ => 0) (fun _ => none) (fun _ => none)
      ⟨none, none, none⟩ = none :=
  (finalList_ids_defined (fun _ => 0) (fun _ => none) (fun _ => none) []).1
    ⟨none, none, none⟩ rfl rfl

-- ---------- C3 ----------

lemma rotCount_zero {α : Type} (resp : ℕ → YtResponse α) (a : ℕ) :
    rotCount resp a 0 = 0 := rfl

lemma rotCount_succ {α : Type} (resp : ℕ → YtResponse α) (a n : ℕ) :
    rotCount resp a (n + 1) =
      (if rotatingReason (resp a).reason then 1 else 0) +
        rotCount resp (a + 1) n := by
  unfold rotCount
  rw [List.range'_succ, List.filter_cons]
  split
  · simp [Nat.add_comm]
  · simp

lemma youtubeFetchGo_exhausted {α : Type} (poolLen : ℕ)
    (resp : ℕ → YtResponse α) :
    ∀ fuel a idx : ℕ, (∀ k, k < fuel → ¬ attemptSucceeds (resp (a + k))) →
      youtubeFetchGo poolLen resp fuel a idx =
        .exhausted ((rotateKey poolLen)^[rotCount resp a fuel] idx) := by
  intro fuel
  induction fuel with
  | zero => intro a idx _; rfl
  | succ n ih =>
    intro a idx h
    have h0 : ¬ attemptSucceeds (resp a) := by
      have := h 0 (Nat.succ_pos n)
      simpa using this
    have hshift : ∀ k, k < n → ¬ attemptSucceeds (resp (a + 1 + k)) := by
      intro k hk
      have := h (k + 1) (by omega)
      rw [show a + 1 + k = a + (k + 1) by omega]
      exact this
    unfold youtubeFetchGo
    by_cases hr : rotatingReason (resp a).reason
    · rw [if_pos hr, ih (a + 1) (rotateKey poolLen idx) hshift,
        rotCount_succ, if_pos hr]
      rw [Nat.add_comm 1 (rotCount resp (a + 1) n),
        Function.iterate_add_apply]
      rfl
    · have hok : (resp a).ok = false := by
        cases hco : (resp a).ok
        · rfl
        · exact absurd ⟨Bool.not_eq_true _ ▸ (by simpa using hr), hco⟩ h0
      rw [if_neg hr]
      simp only [hok, if_pos]
      rw [ih (a + 1) idx hshift, rotCount_succ, if_neg hr]
      simp

lemma youtubeFetchGo_success {α : Type} (poolLen : ℕ)
    (resp : ℕ → YtResponse α) :
    ∀ fuel a idx k : ℕ, k < fuel → attemptSucceeds (resp (a + k)) →
      (∀ j, j < k → ¬ attemptSucceeds (resp (a + j))) →
      youtubeFetchGo poolLen resp fuel a idx =
        .success (resp (a + k)).data
          ((rotateKey poolLen)^[rotCount resp a k] idx) := by
  intro fuel
  induction fuel with
  | zero => intro a idx k hk; omega
  | succ n ih =>
    intro a idx k hk hsucc hprev
    cases k with
    | zero =>
      obtain ⟨hr0, hok0⟩ := hsucc
      simp only [Nat.add_zero] at hr0 hok0
      unfold youtubeFetchGo
      rw [if_neg (by rw [hr0]; exact Bool.false_ne_true), ]
      simp only [hok0]
      simp [rotCount_zero]
    | succ j =>
      have h0 : ¬ attemptSucceeds (resp a) := by
        have := hprev 0 (Nat.succ_pos j)
        simpa using this
      have hsucc' : attemptSucceeds (resp (a + 1 + j)) := by
        rw [show a + 1 + j = a + (j + 1) by omega]
        exact hsucc
      have hprev' : ∀ i, i < j → ¬ attemptSucceeds (resp (a + 1 + i)) := by
        intro i hi
        rw [show a + 1 + i = a + (i + 1) by omega]
        exact hprev (i + 1) (by omega)
      unfold youtubeFetchGo
      by_cases hr : rotatingReason (resp a).reason
      · rw [if_pos hr,
          ih (a + 1) (rotateKey poolLen idx) j (by omega) hsucc' hprev']
        rw [show a + 1 + j = a + (j + 1) by omega]
        rw [rotCount_succ, if_pos hr,
          Nat.add_comm 1 (rotCount resp (a + 1) j),
          Function.iterate_add_apply]
        rfl
      · have hok : (resp a).ok = false := by
          cases hco : (resp a).ok
          · rfl
          · exact absurd ⟨Bool.not_eq_true _ ▸ (by simpa using hr), hco⟩ h0
        rw [if_neg hr]
        simp only [hok, if_pos]
        rw [ih (a + 1) idx j (by omega) hsucc' hprev']
        rw [show a + 1 + j = a + (j + 1) by omega]
        rw [rotCount_succ, if_neg hr]
        simp

/-- C3: characterization of the fetch-with-retry client, restricted to a
non-empty credential pool (with an empty pool the JS index arithmetic
degenerates to `NaN`).  On each attempt, the key index is advanced exactly
once per response whose error reason is `quotaExceeded`,
`accessNotConfigured` or `serviceDisabled` (`rotCount` counts those
responses, and the final index is `rotateKey` iterated that many times) and
is left unchanged by a non-ok transport status; the first response that is
ok and carries no rotating reason is returned as success; if all
`maxRetries` attempts fail, the client throws the exhausted error; the
default retry budget is `max 1 poolLen`, the pool size with a minimum of
one.  (The ≈500 ms cooldown between attempts is untimed in this model.) -/
theorem youtubeFetch_spec {α : Type} (poolLen : ℕ) (resp : ℕ → YtResponse α)
    (idx fuel : ℕ) (hpool : 0 < poolLen) :
    ((∀ k, k < fuel → ¬ attemptSucceeds (resp k)) →
      youtubeFetchGo poolLen resp fuel 0 idx =
        .exhausted ((rotateKey poolLen)^[rotCount resp 0 fuel] idx)) ∧
    (∀ k, k < fuel → attemptSucceeds (resp k) →
      (∀ j, j < k → ¬ attemptSucceeds (resp j)) →
      youtubeFetchGo poolLen resp fuel 0 idx =
        .success (resp k).data ((rotateKey poolLen)^[rotCount resp 0 k] idx)) ∧
    (youtubeFetch poolLen resp idx =
      youtubeFetchGo poolLen resp (max 1 poolLen) 0 idx) ∧
    (∀ r : YtResponse α, rotatingReason r.reason = true ↔
      (r.reason = some "quotaExceeded" ∨ r.reason = some "accessNotConfigured" ∨
        r.reason = some "serviceDisabled")) := by
  refine ⟨?_, ?_, rfl, ?_⟩
  · intro h
    exact youtubeFetchGo_exhausted poolLen resp fuel 0 idx
      (by intro k hk; rw [Nat.zero_add]; exact h k hk)
  · intro k hk hs hp
    have := youtubeFetchGo_success poolLen resp fuel 0 idx k hk
      (by rw [Nat.zero_add]; exact hs)
      (by intro j hj; rw [Nat.zero_add]; exact hp j hj)
    rw [Nat.zero_add] at this
    exact this
  · intro r
    cases hr : r.reason with
    | none => simp [rotatingReason]
    | some s => simp [rotatingReason, or_assoc]

theorem youtubeFetch_spec_witness :
    youtubeFetchGo 2 respW 2 0 0 =
      FetchResult.success 2 ((rotateKey 2)^[rotCount respW 0 1] 0) :=
  (youtubeFetch_spec 2 respW 0 2 (by decide)).2.1 1 (by decide)
    (by constructor <;> decide) (by decide)

-- ---------- Dedup lemmas (for C1) ----------

lemma dedupGo_cons (seen : List String) (it : RawItem) (rest : List RawItem) :
    dedupGo seen (it :: rest) =
      match effectiveId it with
      | none => dedupGo seen rest
      | some id =>
        if id ∈ seen then dedupGo seen rest
        else it :: dedupGo (id :: seen) rest := rfl

lemma dedupGo_sublist : ∀ (l : List RawItem) (seen : List String),
    (dedupGo seen l).Sublist l := by
  intro l
  induction l with
  | nil => intro seen; exact List.Sublist.refl _
  | cons it rest ih =>
    intro seen
    cases hid : effectiveId it with
    | none =>
      simp only [dedupGo_cons, hid]
      exact (ih seen).cons it
    | some id =>
      simp only [dedupGo_cons, hid]
      by_cases hs : id ∈ seen
      · rw [if_pos hs]
        exact (ih seen).cons it
      · rw [if_neg hs]
        exact (ih (id :: seen)).cons₂ it

lemma dedupById_sublist (l : List RawItem) : (dedupById l).Sublist l :=
  dedupGo_sublist l []

lemma mem_keepFirst : ∀ (l : List String) (s : String),
    s ∈ keepFirst l ↔ s ∈ l := by
  intro l
  induction l with
  | nil => intro s; rfl
  | cons x xs ih =>
    intro s
    unfold keepFirst
    by_cases hx : s = x
    · subst hx
      simp
    · simp only [List.mem_cons, List.mem_filter]
      constructor
      · rintro (rfl | ⟨hmem, _⟩)
        · exact Or.inl rfl
        · exact Or.inr ((ih s).mp hmem)
      · rintro (rfl | hmem)
        · exact Or.inl rfl
        · exact Or.inr ⟨(ih s).mpr hmem, by simp [hx]⟩

lemma keepFirst_nodup : ∀ l : List String, (keepFirst l).Nodup := by
  intro l
  induction l with
  | nil => exact List.nodup_nil
  | cons x xs ih =>
    unfold keepFirst
    refine List.Nodup.cons ?_ (ih.filter _)
    intro hmem
    have := (List.mem_filter.mp hmem).2
    simp at this

lemma idsOf_cons_none {it : RawItem} (rest : List RawItem)
    (hid : effectiveId it = none) : idsOf (it :: rest) = idsOf rest := by
  unfold idsOf
  rw [List.filterMap_cons, hid]

lemma idsOf_cons_some {it : RawItem} {id : String} (rest : List RawItem)
    (hid : effectiveId it = some id) :
    idsOf (it :: rest) = id :: idsOf rest := by
  unfold idsOf
  rw [List.filterMap_cons, hid]

lemma ids_dedupGo : ∀ (l : List RawItem) (seen : List String),
    idsOf (dedupGo seen l) =
      (keepFirst (idsOf l)).filter (fun y => !decide (y ∈ seen)) := by
  intro l
  induction l with
  | nil => intro seen; rfl
  | cons it rest ih =>
    intro seen
    cases hid : effectiveId it with
    | none =>
      simp only [dedupGo_cons, hid]
      rw [idsOf_cons_none rest hid, ih seen]
    | some id =>
      simp only [dedupGo_cons, hid]
      rw [idsOf_cons_some rest hid]
      show _ = (keepFirst (id :: idsOf rest)).filter _
      unfold keepFirst
      rw [List.filter_cons]
      by_cases hs : id ∈ seen
      · rw [if_pos hs, if_neg (by simp [hs]), ih seen, List.filter_filter]
        apply List.filter_congr
        intro y _
        by_cases hy : y ∈ seen
        · simp [hy]
        · have : y ≠ id := fun h => hy (h ▸ hs)
          simp [hy, this]
      · rw [if_neg hs, if_pos (by simp [hs])]
        rw [idsOf_cons_some _ hid, ih (id :: seen), List.filter_filter]
        congr 1
        apply List.filter_congr
        intro y _
        by_cases hy : y ∈ seen
        · have : y ∈ id :: seen := List.mem_cons_of_mem _ hy
          simp [hy, this]
        · by_cases hyid : y = id
          · subst hyid
            simp
          · have : y ∉ id :: seen := by
              simp [List.mem_cons, hyid, hy]
            simp [this, hy, hyid]

lemma ids_dedupById (l : List RawItem) :
    idsOf (dedupById l) = keepFirst (idsOf l) := by
  unfold dedupById
  rw [ids_dedupGo l []]
  apply List.filter_eq_self.mpr
  intro y _
  simp

lemma ids_dedupById_nodup (l : List RawItem) :
    (idsOf (dedupById l)).Nodup := by
  rw [ids_dedupById]
  exact keepFirst_nodup _

lemma dedupGo_append : ∀ (l : List RawItem) (seen : List String)
    (b : List RawItem),
    dedupGo seen (dedupGo seen l ++ b) = dedupGo seen (l ++ b) := by
  intro l
  induction l with
  | nil => intro seen b; rfl
  | cons it rest ih =>
    intro seen b
    rw [List.cons_append]
    cases hid : effectiveId it with
    | none =>
      simp only [dedupGo_cons, hid]
      exact ih seen b
    | some id =>
      by_cases hs : id ∈ seen
      · simp only [dedupGo_cons, hid, if_pos hs]
        exact ih seen b
      · simp only [dedupGo_cons, hid, if_neg hs, List.cons_append]
        rw [ih (id :: seen) b]

lemma dedupById_append_dedupById (a b : List RawItem) :
    dedupById (dedupById a ++ b) = dedupById (a ++ b) :=
  dedupGo_append a [] b

lemma dedupById_idem (l : List RawItem) :
    dedupById (dedupById l) = dedupById l := by
  have := dedupById_append_dedupById l []
  simpa using this

lemma itemsConcat_zero (pages : ℕ → Page) (i : ℕ) :
    itemsConcat pages i 0 = [] := rfl

lemma itemsConcat_succ (pages : ℕ → Page) (i n : ℕ) :
    itemsConcat pages i (n + 1) =
      pageItems pages i ++ itemsConcat pages (i + 1) n := by
  unfold itemsConcat
  rw [List.range'_succ]
  simp

-- ---------- searchLoop characterization (for C1 and C8) ----------

lemma pageItems_eq {pages : ℕ → Page} {i : ℕ} {its : List RawItem}
    (h : (pages i).items = some its) : pageItems pages i = its := by
  unfold pageItems
  rw [h]
  rfl

lemma searchLoop_zero (pages : ℕ → Page) (i : ℕ) (acc : List RawItem) :
    searchLoop pages 0 i acc = ⟨acc, 0, .budgetExhausted, i⟩ := rfl

lemma searchLoop_noItems (pages : ℕ → Page) (fuel i : ℕ)
    (acc : List RawItem) (h : (pages i).items = none) :
    searchLoop pages (fuel + 1) i acc = ⟨acc, 1, .noItems, i⟩ := by
  simp only [searchLoop, h]

lemma searchLoop_noToken (pages : ℕ → Page) (fuel i : ℕ)
    (acc its : List RawItem) (h : (pages i).items = some its)
    (h2 : (pages i).nextPageToken = none) :
    searchLoop pages (fuel + 1) i acc = ⟨acc ++ its, 1, .noToken, i⟩ := by
  simp only [searchLoop, h, h2]

lemma searchLoop_step (pages : ℕ → Page) (fuel i : ℕ)
    (acc its : List RawItem) (t : String) (h : (pages i).items = some its)
    (h2 : (pages i).nextPageToken = some t) :
    searchLoop pages (fuel + 1) i acc =
      ⟨(searchLoop pages fuel (i + 1) (dedupById (acc ++ its))).acc,
       (searchLoop pages fuel (i + 1) (dedupById (acc ++ its))).requests + 1,
       (searchLoop pages fuel (i + 1) (dedupById (acc ++ its))).mode,
       (searchLoop pages fuel (i + 1) (dedupById (acc ++ its))).lastPage⟩ := by
  simp only [searchLoop, h, h2]

lemma searchLoop_spec (pages : ℕ → Page) :
    ∀ (fuel i : ℕ) (acc : List RawItem), dedupById acc = acc →
      (searchLoop pages fuel i acc).requests ≤ fuel ∧
      ((searchLoop pages fuel i acc).mode = StopMode.budgetExhausted →
        (searchLoop pages fuel i acc).requests = fuel ∧
        (searchLoop pages fuel i acc).acc =
          dedupById (acc ++ itemsConcat pages i fuel)) ∧
      ((searchLoop pages fuel i acc).mode = StopMode.noItems →
        1 ≤ (searchLoop pages fuel i acc).requests ∧
        (searchLoop pages fuel i acc).lastPage =
          i + ((searchLoop pages fuel i acc).requests - 1) ∧
        (pages (searchLoop pages fuel i acc).lastPage).items = none ∧
        (searchLoop pages fuel i acc).acc =
          dedupById (acc ++ itemsConcat pages i
            ((searchLoop pages fuel i acc).requests - 1))) ∧
      ((searchLoop pages fuel i acc).mode = StopMode.noToken →
        1 ≤ (searchLoop pages fuel i acc).requests ∧
        (searchLoop pages fuel i acc).lastPage =
          i + ((searchLoop pages fuel i acc).requests - 1) ∧
        ∃ its, (pages (searchLoop pages fuel i acc).lastPage).items = some its ∧
          (pages (searchLoop pages fuel i acc).lastPage).nextPageToken = none ∧
          (searchLoop pages fuel i acc).acc =
            dedupById (acc ++ itemsConcat pages i
              ((searchLoop pages fuel i acc).requests - 1)) ++ its) := by
  intro fuel
  induction fuel with
  | zero =>
    intro i acc h
    rw [searchLoop_zero]
    refine ⟨Nat.le_refl 0, ?_, ?_, ?_⟩
    · intro _
      refine ⟨rfl, ?_⟩
      show acc = dedupById (acc ++ itemsConcat pages i 0)
      rw [itemsConcat_zero, List.append_nil, h]
    · intro hm
      cases hm
    · intro hm
      cases hm
  | succ fuel ih =>
    intro i acc h
    cases hit : (pages i).items with
    | none =>
      rw [searchLoop_noItems pages fuel i acc hit]
      refine ⟨show 1 ≤ fuel + 1 by omega, ?_, ?_, ?_⟩
      · intro hm
        cases hm
      · intro _
        refine ⟨Nat.le_refl 1, show i = i + (1 - 1) by omega, hit, ?_⟩
        show acc = dedupById (acc ++ itemsConcat pages i (1 - 1))
        rw [show (1 : ℕ) - 1 = 0 from rfl, itemsConcat_zero,
          List.append_nil, h]
      · intro hm
        cases hm
    | some its =>
      cases htok : (pages i).nextPageToken with
      | none =>
        rw [searchLoop_noToken pages fuel i acc its hit htok]
        refine ⟨show 1 ≤ fuel + 1 by omega, ?_, ?_, ?_⟩
        · intro hm
          cases hm
        · intro hm
          cases hm
        · intro _
          refine ⟨Nat.le_refl 1, show i = i + (1 - 1) by omega, its, hit,
            htok, ?_⟩
          show acc ++ its =
            dedupById (acc ++ itemsConcat pages i (1 - 1)) ++ its
          rw [show (1 : ℕ) - 1 = 0 from rfl, itemsConcat_zero,
            List.append_nil, h]
      | some t =>
        rw [searchLoop_step pages fuel i acc its t hit htok]
        obtain ⟨ih1, ih2, ih3, ih4⟩ :=
          ih (i + 1) (dedupById (acc ++ its)) (dedupById_idem _)
        dsimp only
        refine ⟨by omega, ?_, ?_, ?_⟩
        · intro hm
          obtain ⟨hreq, hacc⟩ := ih2 hm
          refine ⟨by omega, ?_⟩
          rw [hacc, dedupById_append_dedupById, List.append_assoc,
            itemsConcat_succ, pageItems_eq hit]
        · intro hm
          obtain ⟨hreq, hlast, hnone, hacc⟩ := ih3 hm
          obtain ⟨n, hn⟩ : ∃ n,
              (searchLoop pages fuel (i + 1)
                (dedupById (acc ++ its))).requests = n + 1 :=
            ⟨(searchLoop pages fuel (i + 1)
                (dedupById (acc ++ its))).requests - 1, by omega⟩
          rw [hn] at hlast hacc ⊢
          simp only [Nat.add_sub_cancel] at hlast hacc ⊢
          refine ⟨by omega, by omega, hnone, ?_⟩
          rw [hacc, dedupById_append_dedupById, List.append_assoc,
            itemsConcat_succ, pageItems_eq hit]
        · intro hm
          obtain ⟨hreq, hlast, its2, hit2, htok2, hacc⟩ := ih4 hm
          obtain ⟨n, hn⟩ : ∃ n,
              (searchLoop pages fuel (i + 1)
                (dedupById (acc ++ its))).requests = n + 1 :=
            ⟨(searchLoop pages fuel (i + 1)
                (dedupById (acc ++ its))).requests - 1, by omega⟩
          rw [hn] at hlast hacc ⊢
          simp only [Nat.add_sub_cancel] at hlast hacc ⊢
          refine ⟨by omega, by omega, its2, hit2, htok2, ?_⟩
          rw [hacc, dedupById_append_dedupById, List.append_assoc,
            itemsConcat_succ, pageItems_eq hit]

-- ---------- C1 ----------

/-- C1 counterexample: two pages both carrying the item with identifier
"A", the second without a continuation token.  The loop appends the final
page *before* the `!nextPageToken` break is followed by the dedup step, so
the accumulated list is `[A, A]`: the identifier "A" occurs twice, refuting
that the dedup step is re-applied after the final iteration however the
loop terminates. -/
theorem searchLoop_dup_counterexample :
    (fetchSearchResults pgsDup).acc = [witA, witA] ∧
    ¬ (idsOf (fetchSearchResults pgsDup).acc).Nodup := by
  constructor
  · rfl
  · decide

/-- C1 (amended): the accumulated list of the page loop is the stable
first-occurrence dedup of everything appended — each identifier exactly
once, in first-occurrence order, by an order-preserving (sublist)
selection — in every termination mode *except* when the loop stops on a
response that carries items but no continuation token: that final page's
items are appended after the last dedup application, so identifiers
repeated on the final page may appear twice.  Dedup is re-applied after
every iteration that proceeds to another page. -/
theorem searchLoop_dedup_amended (pages : ℕ → Page) (fuel i : ℕ)
    (acc : List RawItem) (h : dedupById acc = acc) :
    ((searchLoop pages fuel i acc).mode ≠ StopMode.noToken →
      (idsOf (searchLoop pages fuel i acc).acc).Nodup ∧
      ∃ n, n ≤ fuel ∧ (searchLoop pages fuel i acc).acc =
        dedupById (acc ++ itemsConcat pages i n)) ∧
    ((searchLoop pages fuel i acc).mode = StopMode.noToken →
      ∃ its, (pages (searchLoop pages fuel i acc).lastPage).items = some its ∧
        (pages (searchLoop pages fuel i acc).lastPage).nextPageToken = none ∧
        (searchLoop pages fuel i acc).acc =
          dedupById (acc ++ itemsConcat pages i
            ((searchLoop pages fuel i acc).requests - 1)) ++ its) ∧
    (∀ l : List RawItem,
      idsOf (dedupById l) = keepFirst (idsOf l) ∧
      (idsOf (dedupById l)).Nodup ∧
      (dedupById l).Sublist l ∧
      (∀ s, s ∈ keepFirst (idsOf l) ↔ s ∈ idsOf l)) := by
  obtain ⟨h1, h2, h3, h4⟩ := searchLoop_spec pages fuel i acc h
  refine ⟨?_, ?_, ?_⟩
  · intro hmode
    cases hm : (searchLoop pages fuel i acc).mode with
    | budgetExhausted =>
      obtain ⟨hreq, hacc⟩ := h2 hm
      exact ⟨hacc ▸ ids_dedupById_nodup _, fuel, Nat.le_refl _, hacc⟩
    | noItems =>
      obtain ⟨hreq, _, _, hacc⟩ := h3 hm
      exact ⟨hacc ▸ ids_dedupById_nodup _,
        (searchLoop pages fuel i acc).requests - 1, by omega, hacc⟩
    | noToken => exact absurd hm hmode
  · intro hm
    obtain ⟨_, _, its, hit, htok, hacc⟩ := h4 hm
    exact ⟨its, hit, htok, hacc⟩
  · intro l
    exact ⟨ids_dedupById l, ids_dedupById_nodup l, dedupById_sublist l,
      fun s => mem_keepFirst (idsOf l) s⟩

theorem searchLoop_dedup_amended_witness :
    idsOf (dedupById [witA, witB, witA]) =
      keepFirst (idsOf [witA, witB, witA]) :=
  ((searchLoop_dedup_amended pgsDup 1 0 [] rfl).2.2 [witA, witB, witA]).1

-- ---------- C8 ----------

/-- C8 counterexample: the first response carries an *empty but present*
items array together with a continuation token.  `!data?.items` is false
for an empty array (only an absent field is falsy), so the loop does not
stop: it issues a second page request, refuting that a response with an
empty items list stops the loop. -/
theorem emptyItems_continues_counterexample :
    (pgsEmptyItems 0).items = some [] ∧
    (pgsEmptyItems 0).nextPageToken = some "t" ∧
    (fetchSearchResults pgsEmptyItems).requests = 2 :=
  ⟨rfl, rfl, rfl⟩

/-- C8 (amended): the paginated search fetch issues at most
`TOTAL_PAGES_TO_FETCH = ceil(TOTAL_VIDEOS_TO_FETCH / PAGE_SIZE) = 60` page
requests; it terminates (with a single further request) as soon as a
response's items field is absent, or as soon as a response carries no
continuation token; a response whose items list is present — even when
empty — together with a continuation token does not stop the loop. -/
theorem searchLoop_pagecap_amended (pages : ℕ → Page) :
    TOTAL_PAGES_TO_FETCH = 60 ∧
    (fetchSearchResults pages).requests ≤ TOTAL_PAGES_TO_FETCH ∧
    (∀ fuel i acc, (pages i).items = none →
      searchLoop pages (fuel + 1) i acc = ⟨acc, 1, .noItems, i⟩) ∧
    (∀ fuel i acc its, (pages i).items = some its →
      (pages i).nextPageToken = none →
      searchLoop pages (fuel + 1) i acc = ⟨acc ++ its, 1, .noToken, i⟩) ∧
    (∀ fuel i acc its t, (pages i).items = some its →
      (pages i).nextPageToken = some t →
      (searchLoop pages (fuel + 1) i acc).requests =
        (searchLoop pages fuel (i + 1) (dedupById (acc ++ its))).requests
          + 1) := by
  refine ⟨rfl, (searchLoop_spec pages TOTAL_PAGES_TO_FETCH 0 [] rfl).1,
    ?_, ?_, ?_⟩
  · intro fuel i acc hit
    exact searchLoop_noItems pages fuel i acc hit
  · intro fuel i acc its hit htok
    exact searchLoop_noToken pages fuel i acc its hit htok
  · intro fuel i acc its t hit htok
    rw [searchLoop_step pages fuel i acc its t hit htok]

theorem searchLoop_pagecap_amended_witness :
    searchLoop (fun _ => ⟨none, none⟩) 1 0 [] =
      ⟨[], 1, StopMode.noItems, 0⟩ :=
  (searchLoop_pagecap_amended (fun _ => ⟨none, none⟩)).2.2.1 0 0 [] rfl

end FindGems
